import Mathlib

/-!
Verification of the software-defined-retro-rom firmware against its
natural-language specification.

The firmware emulates 2316/2332/2364 parallel ROM chips on an STM32/RP235x
microcontroller.  The development below shallowly embeds the C sources:

* `src/test/src/query-roms.c` — address/data mangling helpers
  (`create_mangled_address`, `demangle_byte`);
* `src/test/src/check-roms.c` — the full-table validation sweep;
* `src/sdrr/src/rom_impl.c` — the STM32F4 serve-loop mask selection
  (`compute_cs_masks` below), the `TEST_CS` hot-loop test, the image preload
  (`preload_rom_image`, both STM32F1 and STM32F4 variants) and
  `get_rom_index`;
* `src/sdrr/src/rp235x.c` — `check_config`;
* `src/sdrr/src/utils.c` — `check_sel_pins`;
* `src/sdrr/src/main.c` — `check_enter_bootloader` and the boot sequence of
  `main`.

Machine integers are embedded as `Nat`; the C bitwise operators map to the
`Nat` bitwise operators.  All embedded values stay far below `2 ^ 32`, and
where a width matters (the `size_t` complement mask in the STM32F1 preload)
the 64-bit mask is written out explicitly.

The pre-mangled ROM table itself is produced by the build-time generator
(`sdrr-gen`), which is not part of the firmware sources; where a claim needs
it, it is modelled from the specification and marked as such.
-/

/-! ## Generic single-bit helpers

`setBitIf b k m` renders the C idiom `if (b) m |= (1 << k);`. -/

/-- Conditionally set bit `k` of `m`: the C idiom `if (b) m |= (1 << k);`. -/
def setBitIf (b : Bool) (k : Nat) (m : Nat) : Nat :=
  if b then m ||| (1 <<< k) else m

/-- C truthiness of `x & (1 << i)`: bit `i` of `x` is set. -/
def bit_test (x i : Nat) : Bool :=
  x &&& (1 <<< i) != 0

theorem testBit_setBitIf (b : Bool) (k m p : Nat) :
    (setBitIf b k m).testBit p = ((b && (k == p)) || m.testBit p) := by
  cases b with
  | false => simp [setBitIf]
  | true =>
    simp [setBitIf, Nat.one_shiftLeft, Nat.testBit_two_pow, Bool.or_comm,
      Bool.beq_eq_decide_eq]

theorem bit_test_eq_testBit (x i : Nat) : bit_test x i = x.testBit i := by
  simp only [bit_test, Nat.one_shiftLeft, Nat.and_two_pow]
  cases x.testBit i <;> simp [Nat.pos_iff_ne_zero]

/-- A number built only from bits below `n` stays below `2 ^ n`. -/
theorem setBitIf_lt {n : Nat} (b : Bool) {k m : Nat} (hk : k < n)
    (hm : m < 2 ^ n) : setBitIf b k m < 2 ^ n := by
  cases b with
  | false => simpa [setBitIf] using hm
  | true =>
    simp only [setBitIf, if_pos]
    exact Nat.or_lt_two_pow hm (by rw [Nat.one_shiftLeft]; exact Nat.pow_lt_pow_right (by omega) hk)

/-! ## C1 — round-trip of the mangled ROM table

Embedded from `src/test/src/query-roms.c`: `create_mangled_address` maps a
logical address plus CS-line states to the raw GPIO bit pattern used as the
table index, and `demangle_byte` maps a byte read from the data GPIO pins
back to the logical data byte. -/

/-- Embeds `create_mangled_address` of `src/test/src/query-roms.c`: CS lines
CS1/X1/X2 go to PC10/PC14/PC15 and logical address bits A0..A12 go to the
scrambled GPIO positions PC5,4,6,7,3,2,1,0,8,13,11,12,9. -/
def create_mangled_address (logical_addr : Nat) (cs1 x1 x2 : Bool) : Nat :=
  let m := (0 : Nat)
  let m := setBitIf cs1 10 m
  let m := setBitIf x1 14 m
  let m := setBitIf x2 15 m
  let m := setBitIf (bit_test logical_addr 0) 5 m
  let m := setBitIf (bit_test logical_addr 1) 4 m
  let m := setBitIf (bit_test logical_addr 2) 6 m
  let m := setBitIf (bit_test logical_addr 3) 7 m
  let m := setBitIf (bit_test logical_addr 4) 3 m
  let m := setBitIf (bit_test logical_addr 5) 2 m
  let m := setBitIf (bit_test logical_addr 6) 1 m
  let m := setBitIf (bit_test logical_addr 7) 0 m
  let m := setBitIf (bit_test logical_addr 8) 8 m
  let m := setBitIf (bit_test logical_addr 9) 13 m
  let m := setBitIf (bit_test logical_addr 10) 11 m
  let m := setBitIf (bit_test logical_addr 11) 12 m
  let m := setBitIf (bit_test logical_addr 12) 9 m
  m

/-- Embeds `demangle_byte` of `src/test/src/query-roms.c`: the data pins are
wired in reverse order, PA0..PA7 carry D7..D0. -/
def demangle_byte (mangled_byte : Nat) : Nat :=
  let l := (0 : Nat)
  let l := setBitIf (bit_test mangled_byte 0) 7 l
  let l := setBitIf (bit_test mangled_byte 1) 6 l
  let l := setBitIf (bit_test mangled_byte 2) 5 l
  let l := setBitIf (bit_test mangled_byte 3) 4 l
  let l := setBitIf (bit_test mangled_byte 4) 3 l
  let l := setBitIf (bit_test mangled_byte 5) 2 l
  let l := setBitIf (bit_test mangled_byte 6) 1 l
  let l := setBitIf (bit_test mangled_byte 7) 0 l
  l

/-- Modelled from the spec: `remap_byte` is the data-bit permutation the
build-time generator (`sdrr-gen`, not under `src/`) applies to each image
byte, "permutes the 8 logical data bits to the bit positions the data GPIO
port will physically drive"; per the board wiring recorded in
`demangle_byte`, logical D7..D0 drive PA0..PA7, so it is the inverse of
`demangle_byte` (the same 8-bit reversal). -/
def remap_byte (logical : Nat) : Nat :=
  let b := (0 : Nat)
  let b := setBitIf (bit_test logical 7) 0 b
  let b := setBitIf (bit_test logical 6) 1 b
  let b := setBitIf (bit_test logical 5) 2 b
  let b := setBitIf (bit_test logical 4) 3 b
  let b := setBitIf (bit_test logical 3) 4 b
  let b := setBitIf (bit_test logical 2) 5 b
  let b := setBitIf (bit_test logical 1) 6 b
  let b := setBitIf (bit_test logical 0) 7 b
  b

/-- Modelled from the spec: `logical_address_of` recovers the logical address
encoded in a raw table index, the inverse of the address-bit scrambling of
`create_mangled_address` (spec 4.1: the table satisfies
`raw_table[raw_address_bits] == remap_byte(logical_image[logical_address_of(raw_address_bits)])`).
The CS positions (bits 10, 14, 15) are ignored, which yields the mirroring
of the image across the CS regions of the table. -/
def logical_address_of (m : Nat) : Nat :=
  let l := (0 : Nat)
  let l := setBitIf (bit_test m 5) 0 l
  let l := setBitIf (bit_test m 4) 1 l
  let l := setBitIf (bit_test m 6) 2 l
  let l := setBitIf (bit_test m 7) 3 l
  let l := setBitIf (bit_test m 3) 4 l
  let l := setBitIf (bit_test m 2) 5 l
  let l := setBitIf (bit_test m 1) 6 l
  let l := setBitIf (bit_test m 0) 7 l
  let l := setBitIf (bit_test m 8) 8 l
  let l := setBitIf (bit_test m 13) 9 l
  let l := setBitIf (bit_test m 11) 10 l
  let l := setBitIf (bit_test m 12) 11 l
  let l := setBitIf (bit_test m 9) 12 l
  l

/-- Modelled from the spec: the pre-mangled table of a single-ROM set as laid
out by the build-time generator (`sdrr-gen`, not under `src/`): a 16 KB table
whose entry at raw index `m` is the remapped byte of the logical image at
`logical_address_of m`, mirrored modulo the image size (spec 4.1 and spec 8,
round-trip property). -/
def rom_table_single (image : Nat → Nat) (size : Nat) : Nat → Nat :=
  fun m => remap_byte (image (logical_address_of m % size))

theorem logical_address_of_lt (m : Nat) : logical_address_of m < 2 ^ 13 := by
  unfold logical_address_of
  refine setBitIf_lt _ (by omega) ?_
  refine setBitIf_lt _ (by omega) ?_
  refine setBitIf_lt _ (by omega) ?_
  refine setBitIf_lt _ (by omega) ?_
  refine setBitIf_lt _ (by omega) ?_
  refine setBitIf_lt _ (by omega) ?_
  refine setBitIf_lt _ (by omega) ?_
  refine setBitIf_lt _ (by omega) ?_
  refine setBitIf_lt _ (by omega) ?_
  refine setBitIf_lt _ (by omega) ?_
  refine setBitIf_lt _ (by omega) ?_
  refine setBitIf_lt _ (by omega) ?_
  refine setBitIf_lt _ (by omega) ?_
  norm_num

/-- The address-bit scrambling of `create_mangled_address` and the extraction
`logical_address_of` are mutually inverse, up to the 13-bit truncation (the
mangled index carries only A0..A12) and ignoring the CS bits. -/
theorem logical_address_of_create_mangled (a : Nat) (c x y : Bool) :
    logical_address_of (create_mangled_address a c x y) = a % 8192 := by
  have h8192 : (8192 : Nat) = 2 ^ 13 := by norm_num
  apply Nat.eq_of_testBit_eq
  intro j
  rcases Nat.lt_or_ge j 13 with hj | hj
  · interval_cases j <;>
      simp only [logical_address_of, create_mangled_address, testBit_setBitIf,
        bit_test_eq_testBit, Nat.reduceBEq, Bool.and_false, Bool.and_true,
        Bool.false_or, Bool.or_false, Nat.zero_testBit, h8192,
        Nat.testBit_mod_two_pow] <;> simp
  · have hlt : logical_address_of (create_mangled_address a c x y) < 2 ^ j :=
      Nat.lt_of_lt_of_le (logical_address_of_lt _)
        (Nat.pow_le_pow_right (by omega) hj)
    rw [Nat.testBit_lt_two_pow hlt, h8192, Nat.testBit_mod_two_pow]
    have hnot : ¬ (j < 13) := by omega
    simp [hnot]

set_option maxRecDepth 4000 in
/-- Demangling inverts the generator byte permutation on byte values. -/
theorem demangle_remap_byte : ∀ b < 256, demangle_byte (remap_byte b) = b := by
  decide

/-- Modelled from the spec: the bank-selection of a multi-ROM table region
(spec 2, glossary: multiple logical ROM images selected by auxiliary CS-like
lines X1/X2).  With the active-low bank lines of the validation sweep of
`validate_all_rom_sets` (`src/test/src/check-roms.c`), ROM 0 responds where
the CS1 bit is low, ROM 1 where X1 is low, ROM 2 where X2 is low, with the
priority order of `find_responding_rom`. -/
def responding_rom (m : Nat) : Nat :=
  if m.testBit 10 = false then 0
  else if m.testBit 14 = false then 1
  else 2

/-- Modelled from the spec: the pre-mangled table of a multi-ROM set as laid
out by the build-time generator (not under `src/`): the entry at raw index
`m` comes from the image of the ROM responding at `m`, at logical address
`logical_address_of m`, mirrored modulo the image size. -/
def rom_table_multi (images : Nat → Nat → Nat) (size : Nat) : Nat → Nat :=
  fun m => remap_byte (images (responding_rom m) (logical_address_of m % size))

/-- The CS/X positions (bits 10, 14, 15) of a mangled address reproduce the
CS-line inputs; the scrambled address bits never touch them. -/
theorem create_mangled_cs_bits (a : Nat) (c x y : Bool) :
    (create_mangled_address a c x y).testBit 10 = c
    ∧ (create_mangled_address a c x y).testBit 14 = x
    ∧ (create_mangled_address a c x y).testBit 15 = y := by
  refine ⟨?_, ?_, ?_⟩ <;>
    simp only [create_mangled_address, testBit_setBitIf, bit_test_eq_testBit,
      Nat.reduceBEq, Bool.and_false, Bool.and_true, Bool.false_or,
      Bool.or_false, Nat.zero_testBit]

/-- C1: for every ROM set, every ROM in the set, every logical address `a`
within the sweep and the CS-line combination encoding that this ROM is
selected, demangling the byte of the remapped table at the mangled index
recovers the original image byte; in the single-ROM 16 KB table the image is
mirrored modulo its size. -/
theorem c1_rom_table_round_trip
    (image : Nat → Nat) (himg : ∀ i, image i < 256)
    (size : Nat) (hsize : size = 2048 ∨ size = 4096 ∨ size = 8192)
    (images : Nat → Nat → Nat) (himgs : ∀ r i, images r i < 256) :
    (∀ a, a < 16384 →
      demangle_byte
          (rom_table_single image size (create_mangled_address a false false false))
        = image (a % size))
    ∧ (∀ a, a < size →
        demangle_byte
            (rom_table_multi images size (create_mangled_address a false true true))
          = images 0 a
        ∧ demangle_byte
            (rom_table_multi images size (create_mangled_address a true false true))
          = images 1 a
        ∧ demangle_byte
            (rom_table_multi images size (create_mangled_address a true true false))
          = images 2 a) := by
  have hdvd : size ∣ 8192 := by rcases hsize with h | h | h <;> subst h <;> norm_num
  have hle : size ≤ 8192 := Nat.le_of_dvd (by norm_num) hdvd
  constructor
  · intro a ha
    unfold rom_table_single
    rw [logical_address_of_create_mangled, Nat.mod_mod_of_dvd a hdvd]
    exact demangle_remap_byte _ (himg _)
  · intro a ha
    have hmod : a % 8192 % size = a := by
      rw [Nat.mod_eq_of_lt (show a < 8192 by omega), Nat.mod_eq_of_lt ha]
    refine ⟨?_, ?_, ?_⟩ <;>
      · unfold rom_table_multi responding_rom
        rw [logical_address_of_create_mangled, hmod,
          (create_mangled_cs_bits a _ _ _).1]
        simp only [(create_mangled_cs_bits a _ _ _).2.1,
          (create_mangled_cs_bits a _ _ _).2.2]
        simp only [if_true, if_false, Bool.false_eq_true, Bool.true_eq_false,
          ite_false, ite_true]
        exact demangle_remap_byte _ (himgs _ _)

/-- Concrete instance of `c1_rom_table_round_trip`: an 8 KB single-ROM image
and a 4 KB three-ROM set, checked at explicit addresses. -/
theorem c1_rom_table_round_trip_witness :
    demangle_byte
        (rom_table_single (fun i => i % 256) 8192
          (create_mangled_address 5 false false false)) = 5
    ∧ demangle_byte
        (rom_table_multi (fun r i => (100 * r + i) % 256) 4096
          (create_mangled_address 7 true false true)) = 107 := by
  have h := c1_rom_table_round_trip (fun i => i % 256)
    (fun i => Nat.mod_lt i (by norm_num)) 8192 (Or.inr (Or.inr rfl))
    (fun r i => (100 * r + i) % 256) (fun r i => Nat.mod_lt _ (by norm_num))
  have h2 := c1_rom_table_round_trip (fun i => i % 256)
    (fun i => Nat.mod_lt i (by norm_num)) 4096 (Or.inr (Or.inl rfl))
    (fun r i => (100 * r + i) % 256) (fun r i => Nat.mod_lt _ (by norm_num))
  refine ⟨?_, ?_⟩
  · have := h.1 5 (by norm_num)
    simpa using this
  · have := (h2.2 7 (by norm_num)).2.1
    simpa using this

/-! ## C2, C3, C8 — hot-loop CS test and serve-mode mask selection

Embedded from the STM32F4 `main_loop` of `src/sdrr/src/rom_impl.c`
(lines 513-597) and its `TEST_CS` macro (lines 478-479). -/

/-- ROM type encoding of the generated configuration; the numeric values
follow `get_expected_rom_size` in `src/test/src/query-roms.c` (2316 is 0,
2332 is 1, 2364 is 2). -/
def ROM_TYPE_2316 : Nat := 0

/-- ROM type 2332 (see `ROM_TYPE_2316`). -/
def ROM_TYPE_2332 : Nat := 1

/-- ROM type 2364 (see `ROM_TYPE_2316`). -/
def ROM_TYPE_2364 : Nat := 2

/-- Per-line chip-select polarity, as recorded for each ROM image. -/
inductive cs_state where
  | active_low
  | active_high
  | not_used
deriving DecidableEq

/-- The fields of `sdrr_rom_info_t` that `main_loop` consults. -/
structure sdrr_rom_info where
  rom_type : Nat
  cs1_state : cs_state
  cs2_state : cs_state
  cs3_state : cs_state

/-- CS1 pin bit position for HW_REV_D and HW_REV_E (PC10). -/
def PIN_CS_INT : Nat := 10

/-- CS2 pin bit position (PC12). -/
def PIN_CS2_INT : Nat := 12

/-- CS3 pin bit position (PC9). -/
def PIN_CS3_INT : Nat := 9

/-- Embeds the `switch (rom->rom_type)` at the top of the STM32F4
`main_loop` (`src/sdrr/src/rom_impl.c` lines 519-576): computes
`(cs_check_mask, cs_invert_mask)` and the list of emitted warnings.  An
unrecognized type logs and falls through to the `ROM_TYPE_2364` case. -/
def compute_cs_masks (rom : sdrr_rom_info) : Nat × Nat × List String :=
  if rom.rom_type = ROM_TYPE_2316 then
    let cs_check_mask := (1 <<< PIN_CS_INT) ||| (1 <<< PIN_CS2_INT) ||| (1 <<< PIN_CS3_INT)
    let cs_invert_mask := (0 : Nat)
    let cs_invert_mask :=
      if rom.cs1_state = cs_state.active_low then cs_invert_mask
      else cs_invert_mask ||| (1 <<< PIN_CS_INT)
    let cs_invert_mask :=
      if rom.cs2_state = cs_state.active_low then cs_invert_mask
      else cs_invert_mask ||| (1 <<< PIN_CS2_INT)
    let cs_invert_mask :=
      if rom.cs3_state = cs_state.active_low then cs_invert_mask
      else cs_invert_mask ||| (1 <<< PIN_CS3_INT)
    (cs_check_mask, cs_invert_mask, [])
  else if rom.rom_type = ROM_TYPE_2332 then
    let cs_check_mask := (1 <<< PIN_CS_INT) ||| (1 <<< PIN_CS3_INT)
    let cs_invert_mask := (0 : Nat)
    let cs_invert_mask :=
      if rom.cs1_state = cs_state.active_low then cs_invert_mask
      else cs_invert_mask ||| (1 <<< PIN_CS_INT)
    let cs_invert_mask :=
      if rom.cs2_state = cs_state.active_low then cs_invert_mask
      else cs_invert_mask ||| (1 <<< PIN_CS3_INT)
    (cs_check_mask, cs_invert_mask, [])
  else
    let logs := if rom.rom_type = ROM_TYPE_2364 then ([] : List String)
      else ["Unsupported ROM type"]
    let cs_check_mask := 1 <<< PIN_CS_INT
    let cs_invert_mask := (0 : Nat)
    let cs_invert_mask :=
      if rom.cs1_state = cs_state.active_low then cs_invert_mask
      else cs_invert_mask ||| (1 <<< PIN_CS_INT)
    (cs_check_mask, cs_invert_mask, logs)

/-- Embeds the `TEST_CS` macro of `src/sdrr/src/rom_impl.c` (lines 478-479):
`eor` of the raw input register with the invert mask, then `tst` against the
check mask; the zero flag (the Bool returned here) signals CS active. -/
def test_cs (raw cs_invert_mask cs_check_mask : Nat) : Bool :=
  (raw ^^^ cs_invert_mask) &&& cs_check_mask == 0

/-- Polarity flag as a `cs_state`: `true` means active-high. -/
def cs_of_bool (b : Bool) : cs_state :=
  if b then cs_state.active_high else cs_state.active_low

theorem nat_or_eq_zero_iff (x y : Nat) : x ||| y = 0 ↔ x = 0 ∧ y = 0 := by
  constructor
  · intro h
    constructor
    · apply Nat.eq_of_testBit_eq
      intro i
      have h2 := congrArg (Nat.testBit · i) h
      simp only [Nat.testBit_or, Nat.zero_testBit, Bool.or_eq_false_iff] at h2
      simp [h2.1]
    · apply Nat.eq_of_testBit_eq
      intro i
      have h2 := congrArg (Nat.testBit · i) h
      simp only [Nat.testBit_or, Nat.zero_testBit, Bool.or_eq_false_iff] at h2
      simp [h2.2]
  · rintro ⟨rfl, rfl⟩
    rfl

theorem or_beq_zero (x y : Nat) : (x ||| y == 0) = ((x == 0) && (y == 0)) := by
  by_cases h1 : x = 0
  · subst h1; simp
  · have hx : (x == 0) = false := beq_eq_false_iff_ne.mpr h1
    have hxy : (x ||| y == 0) = false :=
      beq_eq_false_iff_ne.mpr (fun hc => h1 ((nat_or_eq_zero_iff x y).mp hc).1)
    rw [hx, hxy, Bool.false_and]

/-- The hot-loop test distributes over an OR of check-mask bits. -/
theorem test_cs_or (raw inv a b : Nat) :
    test_cs raw inv (a ||| b) = (test_cs raw inv a && test_cs raw inv b) := by
  unfold test_cs
  rw [Nat.and_or_distrib_left, or_beq_zero]

/-- On a single check bit, the hot-loop test compares the raw bit with the
invert-mask bit. -/
theorem test_cs_bit (raw inv n : Nat) :
    test_cs raw inv (1 <<< n) = (raw.testBit n == inv.testBit n) := by
  simp only [test_cs, Nat.one_shiftLeft, Nat.and_two_pow]
  cases hr : raw.testBit n <;> cases hv : inv.testBit n <;>
    simp [Nat.testBit_xor, hr, hv, Nat.pos_iff_ne_zero]

/-- C2: for every input-register value and every polarity assignment of the
chip-select lines relevant to the ROM type (2364: CS1 on bit 10; 2332: CS1
and the second select on bit 9; 2316: CS1, CS2, CS3 on bits 10, 12, 9), with
the invert mask the OR of the active-high pin bits and the check mask the OR
of all relevant pin bits, the hot-loop test succeeds exactly when every
relevant line sits at its configured active level. -/
theorem c2_hot_loop_cs_test (raw : Nat) (p1 p2 p3 : Bool) :
    (test_cs raw (if p1 then 1 <<< 10 else 0) (1 <<< 10) = true
      ↔ raw.testBit 10 = p1)
    ∧ (test_cs raw ((if p1 then 1 <<< 10 else 0) ||| (if p2 then 1 <<< 9 else 0))
        ((1 <<< 10) ||| (1 <<< 9)) = true
      ↔ (raw.testBit 10 = p1 ∧ raw.testBit 9 = p2))
    ∧ (test_cs raw
        ((if p1 then 1 <<< 10 else 0) ||| (if p2 then 1 <<< 12 else 0)
          ||| (if p3 then 1 <<< 9 else 0))
        ((1 <<< 10) ||| (1 <<< 12) ||| (1 <<< 9)) = true
      ↔ (raw.testBit 10 = p1 ∧ raw.testBit 12 = p2 ∧ raw.testBit 9 = p3)) := by
  refine ⟨?_, ?_, ?_⟩ <;>
    · cases p1 <;> cases p2 <;> cases p3 <;>
        · simp only [reduceIte, test_cs_or, test_cs_bit]
          simp only [Nat.testBit_or, Nat.one_shiftLeft, Nat.testBit_two_pow,
            Nat.zero_testBit, Nat.reduceEqDiff, decide_True, decide_False,
            Bool.or_false, Bool.false_or, Bool.or_true, Bool.true_or]
          simp [and_assoc]

/-- C3: for each recognized ROM type and every polarity assignment of its
chip-select lines, the serve-mode selector computes the check mask as exactly
the pin bits of that type's CS lines and the invert mask as exactly the
subset of those bits configured active-high, with no warning logged. -/
theorem c3_mask_derivation : ∀ p1 p2 p3 : Bool,
    compute_cs_masks ⟨ROM_TYPE_2364, cs_of_bool p1, cs_of_bool p2, cs_of_bool p3⟩
      = (1 <<< 10, (if p1 then 1 <<< 10 else 0), [])
    ∧ compute_cs_masks ⟨ROM_TYPE_2332, cs_of_bool p1, cs_of_bool p2, cs_of_bool p3⟩
      = ((1 <<< 10) ||| (1 <<< 9),
         (if p1 then 1 <<< 10 else 0) ||| (if p2 then 1 <<< 9 else 0), [])
    ∧ compute_cs_masks ⟨ROM_TYPE_2316, cs_of_bool p1, cs_of_bool p2, cs_of_bool p3⟩
      = ((1 <<< 10) ||| (1 <<< 12) ||| (1 <<< 9),
         (if p1 then 1 <<< 10 else 0) ||| (if p2 then 1 <<< 12 else 0)
           ||| (if p3 then 1 <<< 9 else 0), []) := by
  decide

/-- C8: an unrecognized `rom_type` logs a warning and proceeds with exactly
the 2364 masks (check mask containing only the CS1 pin bit, invert mask per
CS1 polarity); there is no abort path. -/
theorem c8_unknown_rom_type_defaults (t : Nat)
    (h0 : t ≠ ROM_TYPE_2316) (h1 : t ≠ ROM_TYPE_2332) (h2 : t ≠ ROM_TYPE_2364)
    (c1 c2 c3 : cs_state) :
    compute_cs_masks ⟨t, c1, c2, c3⟩ =
      ((compute_cs_masks ⟨ROM_TYPE_2364, c1, c2, c3⟩).1,
       (compute_cs_masks ⟨ROM_TYPE_2364, c1, c2, c3⟩).2.1,
       ["Unsupported ROM type"]) := by
  have g0 : t ≠ 0 := h0
  have g1 : t ≠ 1 := h1
  have g2 : t ≠ 2 := h2
  simp [compute_cs_masks, ROM_TYPE_2316, ROM_TYPE_2332, ROM_TYPE_2364, g0, g1, g2]

/-- Concrete instance of `c8_unknown_rom_type_defaults`: type 7 serves with
the 2364 check mask (bit 10 only) and logs the warning. -/
theorem c8_unknown_rom_type_defaults_witness :
    compute_cs_masks ⟨7, cs_state.active_low, cs_state.active_low, cs_state.active_low⟩ =
      (1 <<< 10, 0, ["Unsupported ROM type"]) := by
  rw [c8_unknown_rom_type_defaults 7 (by decide) (by decide) (by decide)]
  rfl

/-! ## C4 — serve-mode self-repair

`check_config` in `src/sdrr/src/rp235x.c` (lines 302-307) warns about a
wrong serve mode; its comment notes "Correction is done in main_loop() using
a local variable".  That `main_loop` is not under `src/`, so the repair
itself is modelled from the spec. -/

/-- Serve algorithms of the spec (4.3): A (two CS checks per address),
B (serve on CS), C (address on any CS, for multi-ROM sets). -/
inductive sdrr_serve where
  | SERVE_TWO_CS_CHECKS
  | SERVE_ADDR_ON_CS
  | SERVE_ADDR_ON_ANY_CS
deriving DecidableEq

/-- The single-ROM default serve algorithm (spec 4.3: Algorithm A is "the
default for single-CS-role chips"). -/
def single_rom_default_serve : sdrr_serve := sdrr_serve.SERVE_TWO_CS_CHECKS

/-- Modelled from the spec: the serve-mode self-repair performed by the
current multi-platform `main_loop`, which is not under `src/` (`check_config`
notes the correction happens there).  Spec 4.2: "if `rom_count>1` but
`serve_mode != ADDR_ON_ANY_CS`, force it (and log); if `rom_count==1` but
`serve_mode == ADDR_ON_ANY_CS`, reset to the single-ROM default mode (and
log)".  Returns the repaired mode and the emitted log lines. -/
def repair_serve_mode (rom_count : Nat) (serve : sdrr_serve) :
    sdrr_serve × List String :=
  if 1 < rom_count ∧ serve ≠ sdrr_serve.SERVE_ADDR_ON_ANY_CS then
    (sdrr_serve.SERVE_ADDR_ON_ANY_CS,
     ["!!! Multiple ROM images - wrong serve mode - correcting"])
  else if rom_count = 1 ∧ serve = sdrr_serve.SERVE_ADDR_ON_ANY_CS then
    (single_rom_default_serve,
     ["!!! Single ROM image - wrong serve mode - correcting"])
  else
    (serve, [])

/-- Embeds the final check of `check_config` in `src/sdrr/src/rp235x.c`
(lines 302-307): the boot-time warning that the serve mode will be
corrected. -/
def check_config_serve_warning (rom_count : Nat) (serve : sdrr_serve) :
    List String :=
  if rom_count = 1 ∧ serve = sdrr_serve.SERVE_ADDR_ON_ANY_CS then
    ["!!! Single ROM image - wrong serve mode - will correct"]
  else []

/-- C4: the serve mode is repaired in both directions, each repair emitting a
log line (never silently swallowed); an already-consistent mode is kept; and
`check_config` warns at boot exactly in the single-ROM wrong-mode case. -/
theorem c4_serve_mode_self_repair (n : Nat) (s : sdrr_serve) :
    (1 < n → s ≠ sdrr_serve.SERVE_ADDR_ON_ANY_CS →
      repair_serve_mode n s =
        (sdrr_serve.SERVE_ADDR_ON_ANY_CS,
         ["!!! Multiple ROM images - wrong serve mode - correcting"]))
    ∧ (n = 1 → s = sdrr_serve.SERVE_ADDR_ON_ANY_CS →
      repair_serve_mode n s =
        (single_rom_default_serve,
         ["!!! Single ROM image - wrong serve mode - correcting"])
      ∧ check_config_serve_warning n s =
        ["!!! Single ROM image - wrong serve mode - will correct"])
    ∧ ((1 < n → s = sdrr_serve.SERVE_ADDR_ON_ANY_CS) →
       (n = 1 → s ≠ sdrr_serve.SERVE_ADDR_ON_ANY_CS) →
      repair_serve_mode n s = (s, [])) := by
  refine ⟨?_, ?_, ?_⟩
  · intro h1 h2
    simp [repair_serve_mode, h1, h2]
  · intro h1 h2
    subst h1; subst h2
    constructor
    · simp [repair_serve_mode]
    · simp [check_config_serve_warning]
  · intro h1 h2
    unfold repair_serve_mode
    rw [if_neg, if_neg]
    · rintro ⟨hn, hs⟩
      exact (h2 hn) hs
    · rintro ⟨hn, hs⟩
      exact hs (h1 hn)

/-- Concrete instances of `c4_serve_mode_self_repair`: both repair
directions at `rom_count` 2 and 1. -/
theorem c4_serve_mode_self_repair_witness :
    repair_serve_mode 2 sdrr_serve.SERVE_TWO_CS_CHECKS =
      (sdrr_serve.SERVE_ADDR_ON_ANY_CS,
       ["!!! Multiple ROM images - wrong serve mode - correcting"])
    ∧ repair_serve_mode 1 sdrr_serve.SERVE_ADDR_ON_ANY_CS =
      (single_rom_default_serve,
       ["!!! Single ROM image - wrong serve mode - correcting"]) :=
  ⟨(c4_serve_mode_self_repair 2 sdrr_serve.SERVE_TWO_CS_CHECKS).1
      (by omega) (by simp),
   ((c4_serve_mode_self_repair 1 sdrr_serve.SERVE_ADDR_ON_ANY_CS).2.1
      rfl rfl).1⟩

/-! ## C7 — image-select wraparound

Embedded from `get_rom_index` in `src/sdrr/src/rom_impl.c` (lines 802-825). -/

/-- Embeds the STM32F1 branch of `get_rom_index`: selector pins PC0-2, taken
modulo the number of images. -/
def get_rom_index_f1 (gpioc_idr : Nat) (num_images : Nat) : Nat :=
  let rom_sel := gpioc_idr &&& 0x07
  rom_sel % num_images

/-- Embeds the STM32F4 branch of `get_rom_index`: selector bits PB0-2 plus
PB7 shifted to bit 3, taken modulo the number of images. -/
def get_rom_index_f4 (gpiob_idr : Nat) (num_images : Nat) : Nat :=
  let rom_sel := (gpiob_idr &&& 0x07) ||| ((gpiob_idr &&& 0x80) >>> 4)
  rom_sel % num_images

/-- C7: the selected ROM index is the jumper selector value modulo the number
of images, so out-of-range selector values wrap instead of failing (the
result is always a valid index), and a selector that is an exact multiple of
the image count yields index 0.  Both MCU variants. -/
theorem c7_rom_index_wraparound (idr num : Nat) (hnum : 0 < num) :
    (get_rom_index_f4 idr num
        = ((idr &&& 0x07) ||| ((idr &&& 0x80) >>> 4)) % num
      ∧ get_rom_index_f1 idr num = (idr &&& 0x07) % num)
    ∧ get_rom_index_f4 idr num < num
    ∧ (∀ k, ((idr &&& 0x07) ||| ((idr &&& 0x80) >>> 4)) = k * num →
        get_rom_index_f4 idr num = 0) := by
  refine ⟨⟨rfl, rfl⟩, Nat.mod_lt _ hnum, ?_⟩
  intro k hk
  unfold get_rom_index_f4
  rw [hk, Nat.mul_mod_left]

/-- Concrete instance of `c7_rom_index_wraparound`: selector 6 with 3 images
wraps to index 0. -/
theorem c7_rom_index_wraparound_witness :
    get_rom_index_f4 6 3 = 0 ∧ get_rom_index_f4 6 3 < 3 :=
  ⟨(c7_rom_index_wraparound 6 3 (by omega)).2.2 2 (by decide),
   (c7_rom_index_wraparound 6 3 (by omega)).2.1⟩

/-! ## C5, C6 — image preload

Embedded from `preload_rom_image` in `src/sdrr/src/rom_impl.c`
(lines 854-891): the STM32F4 branch is a plain `memcpy`; the STM32F1 branch
re-places each byte so that bit 3 of the destination offset (the skipped,
non-5V-tolerant PB5 position) is always 0. -/

/-- Embeds the destination-offset computation of the STM32F1 branch of
`preload_rom_image`: `(byte_offset & 0x7) | ((byte_offset & ~0x7) << 1)`;
`~0x7` on the 64-bit `size_t` is `0xFFFFFFFFFFFFFFF8`. -/
def dst_offset_f1 (byte_offset : Nat) : Nat :=
  (byte_offset &&& 0x7) ||| ((byte_offset &&& 0xFFFFFFFFFFFFFFF8) <<< 1)

/-- Embeds the STM32F1 copy loop of `preload_rom_image` (lines 869-884):
each source byte `ii < rom_size` is written to `dst_offset_f1 ii` on top of
the initial RAM contents `mem`. -/
def preload_rom_image_f1 (rom_src : Nat → Nat) (rom_size : Nat)
    (mem : Nat → Nat) : Nat → Nat :=
  (List.range rom_size).foldl
    (fun m ii => fun j => if j = dst_offset_f1 ii then rom_src ii else m j) mem

/-- Embeds the STM32F4 branch of `preload_rom_image`:
`memcpy(rom_dst, rom_src, rom_size)`. -/
def preload_rom_image_f4 (rom_src : Nat → Nat) (rom_size : Nat)
    (mem : Nat → Nat) : Nat → Nat :=
  fun j => if j < rom_size then rom_src j else mem j

/-- Masking with the 64-bit complement of 7 keeps the bits from 3 up. -/
theorem and_shiftLeft (x m k : Nat) :
    x &&& (m <<< k) = ((x >>> k) &&& m) <<< k := by
  apply Nat.eq_of_testBit_eq
  intro j
  by_cases hkj : k ≤ j
  · simp [Nat.testBit_and, Nat.testBit_shiftLeft, Nat.testBit_shiftRight, hkj,
      Nat.add_sub_cancel' hkj]
  · simp [Nat.testBit_and, Nat.testBit_shiftLeft, hkj]

/-- Closed form of the STM32F1 destination offset: the low three bits stay,
everything above shifts up one position. -/
theorem dst_offset_f1_eq (ii : Nat) (h : ii < 2 ^ 64) :
    dst_offset_f1 ii = ii % 8 + 16 * (ii / 8) := by
  have hmask : (0xFFFFFFFFFFFFFFF8 : Nat) = (2 ^ 61 - 1) <<< 3 := by
    rw [Nat.shiftLeft_eq]; norm_num
  have h7 : (0x7 : Nat) = 2 ^ 3 - 1 := by norm_num
  have hlow : ii &&& 0x7 = ii % 8 := by
    rw [h7, Nat.and_pow_two_sub_one_eq_mod]
  have hshift : ii >>> 3 < 2 ^ 61 := by
    rw [Nat.shiftRight_eq_div_pow]
    omega
  have h8 : (2 : Nat) ^ 3 = 8 := by norm_num
  have hhigh : ii &&& 0xFFFFFFFFFFFFFFF8 = 8 * (ii / 8) := by
    rw [hmask, and_shiftLeft, Nat.and_pow_two_sub_one_eq_mod,
      Nat.mod_eq_of_lt hshift, Nat.shiftRight_eq_div_pow, Nat.shiftLeft_eq, h8]
    omega
  rw [dst_offset_f1, hlow, hhigh, Nat.shiftLeft_eq]
  have h16 : 8 * (ii / 8) * 2 ^ 1 = 2 ^ 4 * (ii / 8) := by ring
  rw [h16, Nat.or_comm, ← Nat.mul_add_lt_is_or (show ii % 8 < 2 ^ 4 by omega) (ii / 8)]
  have h16b : (2 : Nat) ^ 4 = 16 := by norm_num
  rw [h16b]
  omega

theorem preload_f1_succ_apply (src : Nat → Nat) (n : Nat) (mem : Nat → Nat)
    (j : Nat) :
    preload_rom_image_f1 src (n + 1) mem j =
      if j = dst_offset_f1 n then src n else preload_rom_image_f1 src n mem j := by
  unfold preload_rom_image_f1
  rw [List.range_succ, List.foldl_append]
  rfl

/-- Every destination offset of the STM32F1 copy has bit 3 clear. -/
theorem dst_offset_f1_testBit3 (i : Nat) (h : i < 2 ^ 64) :
    (dst_offset_f1 i).testBit 3 = false := by
  rw [dst_offset_f1_eq i h]
  have h16 : (16 : Nat) = 2 ^ 4 := by norm_num
  have hmod : (i % 8 + 16 * (i / 8)) % 2 ^ 4 = i % 8 := by
    rw [← h16]; omega
  have hstep : (i % 8 + 16 * (i / 8)).testBit 3
      = ((i % 8 + 16 * (i / 8)) % 2 ^ 4).testBit 3 := by
    rw [Nat.testBit_mod_two_pow]
    simp
  rw [hstep, hmod]
  exact Nat.testBit_lt_two_pow (show i % 8 < 2 ^ 3 by omega)

/-- Each copied byte lands at its expanded destination offset, unchanged. -/
theorem preload_f1_written (src mem : Nat → Nat) :
    ∀ size, size ≤ 2 ^ 64 → ∀ i, i < size →
      preload_rom_image_f1 src size mem (dst_offset_f1 i) = src i := by
  intro size
  induction size with
  | zero => intro _ i hi; omega
  | succ n ih =>
    intro hsize i hi
    rw [preload_f1_succ_apply]
    by_cases hin : i = n
    · subst hin; simp
    · have hne : dst_offset_f1 i ≠ dst_offset_f1 n := by
        intro heq
        rw [dst_offset_f1_eq i (by omega), dst_offset_f1_eq n (by omega)] at heq
        omega
      rw [if_neg hne]
      exact ih (by omega) i (by omega)

/-- Table locations with bit 3 set are never written by the STM32F1 copy. -/
theorem preload_f1_untouched (src mem : Nat → Nat) :
    ∀ size, size ≤ 2 ^ 64 → ∀ j, j.testBit 3 = true →
      preload_rom_image_f1 src size mem j = mem j := by
  intro size
  induction size with
  | zero => intro _ j _; rfl
  | succ n ih =>
    intro hsize j hj
    rw [preload_f1_succ_apply]
    have hne : j ≠ dst_offset_f1 n := by
      intro heq
      rw [heq, dst_offset_f1_testBit3 n (by omega)] at hj
      exact Bool.false_ne_true hj
    rw [if_neg hne]
    exact ih (by omega) j hj

/-- C5 fails as stated: on the STM32F1 branch the copy is not linear.  With
source bytes `i+1` over 16 bytes and zeroed RAM, the table byte at offset 8
is 0 (offset 8 has bit 3 set and is never written), not the source byte 9. -/
theorem c5_linear_copy_counterexample :
    preload_rom_image_f1 (fun i => (i + 1) % 256) 16 (fun _ => 0) 8
      ≠ (fun i => (i + 1) % 256) 8 := by
  decide

/-- C5 amended: `preload_rom_image` copies each byte unchanged in value with
no per-byte transformation; on STM32F4 the copy is a plain linear byte copy
(`table[i] = src[i]`), while on STM32F1 byte `i` is placed at the expanded
offset `(i & 0x7) | ((i & ~0x7) << 1)` instead of offset `i`. -/
theorem c5_preload_plain_copy (src : Nat → Nat) (size : Nat)
    (mem : Nat → Nat) (hsize : size ≤ 2 ^ 64) :
    (∀ i, i < size → preload_rom_image_f4 src size mem i = src i)
    ∧ (∀ i, i < size →
        preload_rom_image_f1 src size mem (dst_offset_f1 i) = src i) := by
  constructor
  · intro i hi
    simp [preload_rom_image_f4, hi]
  · intro i hi
    exact preload_f1_written src mem size hsize i hi

/-- Concrete instance of `c5_preload_plain_copy` at offset 3 of a 16-byte
image. -/
theorem c5_preload_plain_copy_witness :
    preload_rom_image_f4 (fun i => (i + 1) % 256) 16 (fun _ => 0) 3 = 4
    ∧ preload_rom_image_f1 (fun i => (i + 1) % 256) 16 (fun _ => 0)
        (dst_offset_f1 3) = 4 := by
  have h := c5_preload_plain_copy (fun i => (i + 1) % 256) 16 (fun _ => 0)
    (by norm_num)
  exact ⟨h.1 3 (by norm_num), h.2 3 (by norm_num)⟩

/-- C6 fails in its duplication part: offsets 0 and 8 differ only in bit 3,
yet the preloaded table holds the first image byte at offset 0 and untouched
RAM at offset 8 — the bit-3-set locations are never written, not duplicated.
(They are also never addressed: the pulled-down PB5 makes that bit read 0.) -/
theorem c6_duplication_counterexample :
    preload_rom_image_f1 (fun i => (i + 1) % 256) 16 (fun _ => 0) 8
      ≠ preload_rom_image_f1 (fun i => (i + 1) % 256) 16 (fun _ => 0) 0 := by
  decide

/-- C6 amended: the STM32F1 preload synthesizes bit 3 of the table index as
always-0 by placing source byte `i` at destination offset
`(i & 0x7) | ((i & ~0x7) << 1)` (equivalently `i % 8 + 16 * (i / 8)`, bit 3
always clear); offsets with bit 3 set are never written and retain the prior
RAM contents — the hardware guarantees they are never indexed, so no
duplication into them is performed. -/
theorem c6_bit3_expansion (src : Nat → Nat) (size : Nat) (mem : Nat → Nat)
    (hsize : size ≤ 2 ^ 64) :
    (∀ i, i < size →
      preload_rom_image_f1 src size mem (dst_offset_f1 i) = src i
      ∧ dst_offset_f1 i = i % 8 + 16 * (i / 8)
      ∧ (dst_offset_f1 i).testBit 3 = false)
    ∧ (∀ j, j.testBit 3 = true → preload_rom_image_f1 src size mem j = mem j) := by
  constructor
  · intro i hi
    exact ⟨preload_f1_written src mem size hsize i hi,
      dst_offset_f1_eq i (by omega), dst_offset_f1_testBit3 i (by omega)⟩
  · intro j hj
    exact preload_f1_untouched src mem size hsize j hj

/-- Concrete instance of `c6_bit3_expansion`: byte 9 of a 16-byte image lands
at offset 17, and the bit-3-set offset 8 keeps the initial RAM value. -/
theorem c6_bit3_expansion_witness :
    preload_rom_image_f1 (fun i => (i + 1) % 256) 16 (fun _ => 7)
        (dst_offset_f1 9) = 10
    ∧ preload_rom_image_f1 (fun i => (i + 1) % 256) 16 (fun _ => 7) 8 = 7 := by
  have h := c6_bit3_expansion (fun i => (i + 1) % 256) 16 (fun _ => 7)
    (by norm_num)
  exact ⟨by rw [(h.1 9 (by norm_num)).1], h.2 8 (by decide)⟩

/-! ## C9, C10 — bootloader strap check and boot ordering

Embedded from `check_sel_pins` in `src/sdrr/src/utils.c` (lines 10-56),
`check_enter_bootloader` in `src/sdrr/src/main.c` (lines 189-201) and the
startup sequence of `main` (lines 219 onwards). -/

/-- Port encoding of the generated configuration, per the `port_names` array
in `src/sdrr/src/utils.c` (NONE, A, B, C, D). -/
def PORT_NONE : Nat := 0

/-- Port A (see `PORT_NONE`). -/
def PORT_A : Nat := 1

/-- Port B (see `PORT_NONE`). -/
def PORT_B : Nat := 2

/-- Embeds `check_sel_pins` of `src/sdrr/src/utils.c`: if the configured
select port is not port B it returns 0 with a zero mask and touches no GPIO;
otherwise it builds the 1-bit mask from the up-to-4 valid select pins
(255 marks an absent pin, pins above 15 are skipped) and returns the pin
register masked by it, together with the mask.  The GPIO pull-down
configuration and settle delay are register side effects with no bearing on
the returned values and are not modelled. -/
def check_sel_pins (sel_port : Nat) (sel : Nat → Nat) (gpiob_idr : Nat) :
    Nat × Nat :=
  if sel_port ≠ PORT_B then
    (0, 0)
  else
    let sel_1bit_mask := (List.range 4).foldl
      (fun mask ii =>
        let pin := sel ii
        if pin < 255 then
          if pin ≤ 15 then mask ||| (1 <<< pin) else mask
        else mask) 0
    (gpiob_idr &&& sel_1bit_mask, sel_1bit_mask)

/-- Embeds `check_enter_bootloader` of `src/sdrr/src/main.c`: a zero select
mask is a failure and the bootloader is not entered; otherwise the bootloader
is entered exactly when all masked select pins read high. -/
def check_enter_bootloader (sel_port : Nat) (sel : Nat → Nat)
    (gpiob_idr : Nat) : Bool :=
  let sel_pins := (check_sel_pins sel_port sel gpiob_idr).1
  let sel_mask := (check_sel_pins sel_port sel gpiob_idr).2
  if sel_mask = 0 then false
  else sel_pins &&& sel_mask == sel_mask

/-- The startup actions of `main` (`src/sdrr/src/main.c`), in program
order. -/
inductive boot_event where
  | check_bootloader
  | jump_to_bootloader
  | system_init
  | gpio_init
  | preload_image
  | serve_loop
deriving DecidableEq

/-- Embeds the order of operations of `main` (`src/sdrr/src/main.c` lines
219 onwards): when bootloader-capable, the strap check runs first; entering
the bootloader never returns, otherwise `system_init`, `gpio_init`, the
image preload and the serve loop follow. -/
def main_boot_trace (bootloader_capable : Bool) (sel_port : Nat)
    (sel : Nat → Nat) (gpiob_idr : Nat) : List boot_event :=
  let normal := [boot_event.system_init, boot_event.gpio_init,
    boot_event.preload_image, boot_event.serve_loop]
  if bootloader_capable then
    if check_enter_bootloader sel_port sel gpiob_idr then
      [boot_event.check_bootloader, boot_event.jump_to_bootloader]
    else
      boot_event.check_bootloader :: normal
  else
    normal

/-- C9 fails as stated: on a board whose select port is not port B the select
mask is 0, so the claimed entry condition — the read pin values ANDed with
the select mask equal the full mask — holds vacuously (0 = 0), yet the
bootloader is not entered. -/
theorem c9_strap_condition_counterexample :
    ((check_sel_pins PORT_A (fun i => i) 0xFFFF).1
        &&& (check_sel_pins PORT_A (fun i => i) 0xFFFF).2
      = (check_sel_pins PORT_A (fun i => i) 0xFFFF).2)
    ∧ boot_event.jump_to_bootloader ∉
        main_boot_trace true PORT_A (fun i => i) 0xFFFF := by
  decide

/-- C9 amended: when the firmware is bootloader-capable the strap check is
the first action of `main`, before `system_init` and `gpio_init` (and hence
before any clock/PLL reconfiguration), and the bootloader is entered exactly
when the select mask is nonzero and the read select pins ANDed with the mask
equal the full mask. -/
theorem c9_bootloader_check_first (capable : Bool) (hcap : capable = true)
    (sel_port : Nat) (sel : Nat → Nat) (gpiob_idr : Nat) :
    (∃ rest, main_boot_trace capable sel_port sel gpiob_idr
      = boot_event.check_bootloader :: rest)
    ∧ (boot_event.jump_to_bootloader ∈ main_boot_trace capable sel_port sel gpiob_idr
      ↔ ((check_sel_pins sel_port sel gpiob_idr).2 ≠ 0
        ∧ (check_sel_pins sel_port sel gpiob_idr).1
            &&& (check_sel_pins sel_port sel gpiob_idr).2
          = (check_sel_pins sel_port sel gpiob_idr).2)) := by
  subst hcap
  have hcb : check_enter_bootloader sel_port sel gpiob_idr = true
      ↔ ((check_sel_pins sel_port sel gpiob_idr).2 ≠ 0
        ∧ (check_sel_pins sel_port sel gpiob_idr).1
            &&& (check_sel_pins sel_port sel gpiob_idr).2
          = (check_sel_pins sel_port sel gpiob_idr).2) := by
    unfold check_enter_bootloader
    by_cases hz : (check_sel_pins sel_port sel gpiob_idr).2 = 0
    · simp [hz]
    · simp [hz, beq_iff_eq]
  cases hc : check_enter_bootloader sel_port sel gpiob_idr with
  | true =>
    constructor
    · exact ⟨[boot_event.jump_to_bootloader], by simp [main_boot_trace, hc]⟩
    · rw [← hcb]
      simp [main_boot_trace, hc]
  | false =>
    constructor
    · exact ⟨[boot_event.system_init, boot_event.gpio_init,
        boot_event.preload_image, boot_event.serve_loop],
        by simp [main_boot_trace, hc]⟩
    · rw [← hcb]
      simp [main_boot_trace, hc]

/-- Concrete instance of `c9_bootloader_check_first`: with select pins 0-3 on
port B all reading high, the bootloader is entered. -/
theorem c9_bootloader_check_first_witness :
    boot_event.jump_to_bootloader ∈ main_boot_trace true PORT_B (fun i => i) 15 :=
  (c9_bootloader_check_first true rfl PORT_B (fun i => i) 15).2.mpr (by decide)

/-- C10: with the select port configured as anything other than port B,
`check_sel_pins` returns 0 with a zero mask (independently of the pin
register value), `check_enter_bootloader` treats the zero mask as a failure
and does not enter the bootloader, and the boot proceeds to serving. -/
theorem c10_sel_port_not_b (sel_port : Nat) (hport : sel_port ≠ PORT_B)
    (sel : Nat → Nat) (gpiob_idr : Nat) (capable : Bool) :
    check_sel_pins sel_port sel gpiob_idr = (0, 0)
    ∧ check_enter_bootloader sel_port sel gpiob_idr = false
    ∧ boot_event.jump_to_bootloader ∉
        main_boot_trace capable sel_port sel gpiob_idr
    ∧ boot_event.serve_loop ∈ main_boot_trace capable sel_port sel gpiob_idr := by
  have h1 : check_sel_pins sel_port sel gpiob_idr = (0, 0) := by
    unfold check_sel_pins
    rw [if_pos hport]
  have h2 : check_enter_bootloader sel_port sel gpiob_idr = false := by
    unfold check_enter_bootloader
    rw [h1]
    rfl
  refine ⟨h1, h2, ?_, ?_⟩ <;>
    · unfold main_boot_trace
      cases capable <;> simp [h2]

/-- Concrete instance of `c10_sel_port_not_b`: port A with all pins high. -/
theorem c10_sel_port_not_b_witness :
    check_sel_pins PORT_A (fun i => i) 0xFFFF = (0, 0)
    ∧ check_enter_bootloader PORT_A (fun i => i) 0xFFFF = false :=
  ⟨(c10_sel_port_not_b PORT_A (by decide) (fun i => i) 0xFFFF true).1,
   (c10_sel_port_not_b PORT_A (by decide) (fun i => i) 0xFFFF true).2.1⟩
